import Mathlib

/-!
Verification of the `brew-tool` publish pipeline (`cmds/create.go`).

Strings are modelled as `List Char` (Go strings are byte sequences; all
inputs of interest here are ASCII).  Each definition below is a shallow
embedding of the corresponding Go function, translated line by line from
`src/cmds/create.go`; collaborators that live outside that file (the git
tag helper, the filesystem, the GitHub content store, the environment)
are passed in explicitly as values or function-valued fields of a `World`
record, so that the control flow of `runCreate` and `upload` can be
stated and proved exactly as written.
-/

namespace BrewTool

/-- Strings as character lists. -/
abbrev Str := List Char

/-- Convert a Lean string literal to the `Str` representation. -/
def strOf (s : String) : Str := s.toList

/-- Go `unicode.IsSpace` restricted to the Latin-1 range (all characters
relevant here are ASCII): space, tab, newline, vertical tab, form feed,
carriage return, NEL (U+0085) and NBSP (U+00A0).  Unicode space characters
above U+00FF are out of scope of this development. -/
def isGoSpace (c : Char) : Bool :=
  c = ' ' || c = '\t' || c = '\n' || c = '\x0b' || c = '\x0c' || c = '\r' ||
  c = '\u0085' || c = ' '

/-- Go `strings.TrimSpace`: drop leading and trailing whitespace. -/
def trimSpace (s : Str) : Str :=
  (((s.dropWhile isGoSpace).reverse.dropWhile isGoSpace)).reverse

/-- Go `strings.Split(s, "\n")`: split at every newline; always returns
`n + 1` pieces for `n` newlines, in particular `[""]` on the empty string. -/
def splitNl : Str → List Str
  | [] => [[]]
  | c :: cs =>
    if c = '\n' then [] :: splitNl cs
    else
      match splitNl cs with
      | [] => [[c]]
      | l :: ls => (c :: l) :: ls

/-- Function `split` from `create.go` (lines 207-213):
`strings.Split(strings.TrimSpace(s), "\n")`, mapped to `[]` when the
result is the one-element list containing the empty string. -/
def split (s : Str) : List Str :=
  let parts := splitNl (trimSpace s)
  -- Go: `if len(strings) == 1 && strings[0] == ""`; for a list this is
  -- exactly equality with `[""]`.
  if parts = [[]] then [] else parts

/-- Go `strings.Replace(s, old, new, -1)` for one-character `old`/`new`. -/
def charReplace (a b : Char) (s : Str) : Str :=
  s.map fun c => if c = a then b else c

/-- Go `strings.Replace(s, " ", "", -1)`: delete every space character. -/
def removeSpaces (s : Str) : Str :=
  s.filter fun c => c ≠ ' '

/-- Go `unicode.ToTitle` restricted to ASCII: map a lowercase ASCII letter
to the corresponding uppercase letter, leave everything else unchanged
(non-ASCII title-case mappings are out of scope). -/
def toTitleChar (c : Char) : Char :=
  if 'a' ≤ c ∧ c ≤ 'z' then Char.ofNat (c.toNat - 32) else c

/-- Go `strings.isSeparator`, the word-boundary test used by
`strings.Title`: for ASCII characters, digits, letters and underscore are
not separators and every other ASCII character is; for non-ASCII
characters Go treats letters and digits as non-separators and spaces as
separators — here only NEL and NBSP are modelled as non-ASCII separators
(all inputs of interest are ASCII). -/
def isSeparator (c : Char) : Bool :=
  if c.toNat ≤ 0x7F then
    !(('0' ≤ c ∧ c ≤ '9') ∨ ('a' ≤ c ∧ c ≤ 'z') ∨ ('A' ≤ c ∧ c ≤ 'Z') ∨ c = '_')
  else
    c = '\u0085' || c = ' '

/-- The character-by-character pass of Go `strings.Title`: title-case a
character exactly when the previous character is a separator (the previous
character before the first one is taken to be a space). -/
def goTitleAux : Char → Str → Str
  | _, [] => []
  | prev, c :: cs =>
    (if isSeparator prev then toTitleChar c else c) :: goTitleAux c cs

/-- Go `strings.Title`. -/
def goTitle (s : Str) : Str := goTitleAux ' ' s

/-- Function `formulaNameFor` from `create.go` (lines 238-242): replace `-` and `_`
by spaces, title-case, then remove all spaces. -/
def formulaNameFor (name : Str) : Str :=
  removeSpaces (goTitle (charReplace '_' ' ' (charReplace '-' ' ' name)))

/-! ### SHA-256 (`crypto/sha256`), over byte lists

`calculate` streams the file bytes through `sha256.New()` and hex-encodes
the digest.  The hash itself is the FIPS 180-4 function, embedded here
over `List Nat` (each element a byte) with 32-bit words as `Nat` reduced
modulo `2^32`. -/

/-- Truncate to a 32-bit word. -/
def w32 (n : Nat) : Nat := n % 4294967296

/-- 32-bit modular addition. -/
def wadd (a b : Nat) : Nat := (a + b) % 4294967296

/-- 32-bit bitwise complement. -/
def wnot (a : Nat) : Nat := Nat.xor a 4294967295

/-- Rotate the 32-bit word `x` right by `n` positions. -/
def rotr (n x : Nat) : Nat := w32 (Nat.lor (x >>> n) (x <<< (32 - n)))

/-- The sixty-four SHA-256 round constants of FIPS 180-4 (in decimal). -/
def shaK : List Nat :=
  [1116352408, 1899447441, 3049323471, 3921009573, 961987163,
   1508970993, 2453635748, 2870763221, 3624381080, 310598401,
   607225278, 1426881987, 1925078388, 2162078206, 2614888103,
   3248222580, 3835390401, 4022224774, 264347078, 604807628,
   770255983, 1249150122, 1555081692, 1996064986, 2554220882,
   2821834349, 2952996808, 3210313671, 3336571891, 3584528711,
   113926993, 338241895, 666307205, 773529912, 1294757372,
   1396182291, 1695183700, 1986661051, 2177026350, 2456956037,
   2730485921, 2820302411, 3259730800, 3345764771, 3516065817,
   3600352804, 4094571909, 275423344, 430227734, 506948616,
   659060556, 883997877, 958139571, 1322822218, 1537002063,
   1747873779, 1955562222, 2024104815, 2227730452, 2361852424,
   2428436474, 2756734187, 3204031479, 3329325298]

/-- The SHA-256 working state: eight 32-bit words. -/
structure Hash8 where
  a : Nat
  b : Nat
  c : Nat
  d : Nat
  e : Nat
  f : Nat
  g : Nat
  h : Nat
deriving DecidableEq

/-- The SHA-256 initial hash value of FIPS 180-4 (in decimal). -/
def shaH0 : Hash8 :=
  ⟨1779033703, 3144134277, 1013904242, 2773480762,
   1359893119, 2600822924, 528734635, 1541459225⟩

/-- Big-endian 8-byte encoding of the bit length appended by padding. -/
def lengthBytes (n : Nat) : List Nat :=
  [Nat.land (n >>> 56) 255, Nat.land (n >>> 48) 255, Nat.land (n >>> 40) 255,
   Nat.land (n >>> 32) 255, Nat.land (n >>> 24) 255, Nat.land (n >>> 16) 255,
   Nat.land (n >>> 8) 255, Nat.land n 255]

/-- SHA-256 padding: append `0x80`, then zero bytes up to 56 mod 64, then
the message bit length as eight big-endian bytes. -/
def padMessage (msg : List Nat) : List Nat :=
  let L := msg.length
  let k := (119 - L % 64) % 64
  msg ++ 0x80 :: List.replicate k 0 ++ lengthBytes (8 * L)

/-- Pack bytes into big-endian 32-bit words, four at a time. -/
def bytesToWords : List Nat → List Nat
  | a :: b :: c :: d :: rest =>
    (a * 16777216 + b * 65536 + c * 256 + d) :: bytesToWords rest
  | _ => []

/-- Split a word list into blocks of sixteen words (fuelled so that the
recursion is structural; the fuel is the list length, always enough). -/
def chunk16Go : Nat → List Nat → List (List Nat)
  | 0, _ => []
  | _, [] => []
  | Nat.succ fuel, ws => ws.take 16 :: chunk16Go fuel (ws.drop 16)

/-- Split a word list into blocks of sixteen words. -/
def chunk16 (ws : List Nat) : List (List Nat) := chunk16Go ws.length ws

/-- One message-schedule extension step: append `w16` computed from the
last sixteen words. -/
def extendStep (ws : List Nat) : List Nat :=
  let i := ws.length
  let x15 := ws.getD (i - 15) 0
  let x2 := ws.getD (i - 2) 0
  let s0 := Nat.xor (Nat.xor (rotr 7 x15) (rotr 18 x15)) (x15 >>> 3)
  let s1 := Nat.xor (Nat.xor (rotr 17 x2) (rotr 19 x2)) (x2 >>> 10)
  ws ++ [wadd (wadd (ws.getD (i - 16) 0) s0) (wadd (ws.getD (i - 7) 0) s1)]

/-- Extend the sixteen block words to the sixty-four schedule words. -/
def schedule (block : List Nat) : List Nat :=
  Nat.rec block (fun _ ws => extendStep ws) 48

/-- One SHA-256 compression round, consuming the pair `(wᵢ, kᵢ)`. -/
def compressStep (st : Hash8) (wk : Nat × Nat) : Hash8 :=
  let s1 := Nat.xor (Nat.xor (rotr 6 st.e) (rotr 11 st.e)) (rotr 25 st.e)
  let ch := Nat.xor (Nat.land st.e st.f) (Nat.land (wnot st.e) st.g)
  let t1 := wadd (wadd (wadd st.h s1) (wadd ch wk.2)) wk.1
  let s0 := Nat.xor (Nat.xor (rotr 2 st.a) (rotr 13 st.a)) (rotr 22 st.a)
  let mj := Nat.xor (Nat.xor (Nat.land st.a st.b) (Nat.land st.a st.c))
    (Nat.land st.b st.c)
  let t2 := wadd s0 mj
  ⟨wadd t1 t2, st.a, st.b, st.c, wadd st.d t1, st.e, st.f, st.g⟩

/-- Compress one sixteen-word block into the running hash value. -/
def compressBlock (h : Hash8) (block : List Nat) : Hash8 :=
  let fin := ((schedule block).zip shaK).foldl compressStep h
  ⟨wadd h.a fin.a, wadd h.b fin.b, wadd h.c fin.c, wadd h.d fin.d,
   wadd h.e fin.e, wadd h.f fin.f, wadd h.g fin.g, wadd h.h fin.h⟩

/-- SHA-256 of a byte list, as the eight final hash words. -/
def sha256words (msg : List Nat) : Hash8 :=
  (chunk16 (bytesToWords (padMessage msg))).foldl compressBlock shaH0

/-- The sixteen lowercase hexadecimal digit characters. -/
def hexDigits : List Char := strOf "0123456789abcdef"

/-- The lowercase hex digit of the low nibble of `n`. -/
def hexDigit (n : Nat) : Char := hexDigits.getD (Nat.land n 15) '0'

/-- Eight lowercase hex digits of a 32-bit word, most significant first. -/
def wordToHex8 (w : Nat) : List Char :=
  [hexDigit (w >>> 28), hexDigit (w >>> 24), hexDigit (w >>> 20),
   hexDigit (w >>> 16), hexDigit (w >>> 12), hexDigit (w >>> 8),
   hexDigit (w >>> 4), hexDigit w]

/-- Model of `hex.EncodeToString(hash.Sum(nil))`: the 64 lowercase hex characters
of the SHA-256 digest of `msg`. -/
def sha256hex (msg : List Nat) : Str :=
  ((sha256words msg).a :: (sha256words msg).b :: (sha256words msg).c ::
   (sha256words msg).d :: (sha256words msg).e :: (sha256words msg).f ::
   (sha256words msg).g :: [(sha256words msg).h]).map wordToHex8 |>.flatten

/-! ### Data model (`create.go` types) -/

/-- The `Homebrew` struct (lines 53-71). -/
structure Homebrew where
  Name : Str
  Owner : Str
  Repo : Str
  BrewOwner : Str
  BrewRepo : Str
  Author : Str
  AuthorEmail : Str
  Folder : Str
  Caveats : Str
  Plist : Str
  Install : Str
  Dependencies : List Str
  Test : Str
  Conflicts : List Str
  Description : Str
  Homepage : Str
  SkipUpload : Bool
deriving DecidableEq

/-- The `Artifact` struct (lines 232-236). -/
structure Artifact where
  Name : Str
  Path : Str
  Version : Str
deriving DecidableEq

/-- The `templateData` record handed to the formula template (the fields
filled in by `dataFor`, lines 189-205). -/
structure templateData where
  Name : Str
  DownloadURL : Str
  Desc : Str
  Homepage : Str
  Owner : Str
  Repo : Str
  Tag : Str
  Version : Str
  Caveats : List Str
  File : Str
  SHA256 : Str
  Dependencies : List Str
  Conflicts : List Str
  Plist : Str
  Install : List Str
deriving DecidableEq

/-- Go `error` values observed by this pipeline.  `fatalMsg` models a
`log.Fatal*` abort; `concurrentModification` models the store rejecting a
stale revision token; the remaining constructors carry opaque messages. -/
inductive GoError where
  | ioErr (msg : Str)
  | remoteErr (msg : Str)
  | concurrentModification
  | fatalMsg (msg : Str)
deriving DecidableEq

/-- Result of `client.Repositories.GetContents`: the file's blob SHA when
one is returned (`file.SHA`, a `*string`, hence `Option`), the HTTP status
code of the response, and the call's error, if any.  The response object
is modelled as always carrying a status code. -/
structure GetRes where
  fileSha : Option Str
  status : Nat
  err : Option GoError
deriving DecidableEq

/-- The arguments of a `CreateFile`/`UpdateFile` call: the repository
coordinates and path, plus the `RepositoryContentFileOptions` fields
(committer identity, content, message, and the optional `SHA`
concurrency precondition). -/
structure WriteArgs where
  owner : Str
  repo : Str
  path : Str
  content : Str
  message : Str
  authorName : Str
  authorEmail : Str
  sha : Option Str
deriving DecidableEq

/-- The remote content store consumed by `upload`: one existence query
result and the outcomes of create and update writes as functions of the
arguments passed. -/
structure Store where
  getFile : GetRes
  createFile : WriteArgs → Option GoError
  updateFile : WriteArgs → Option GoError

/-- Observable effects of one invocation: the local manifest write and
the remote create/update operations, in order. -/
inductive Effect where
  | localWrite (path : Str) (content : Str)
  | create (args : WriteArgs)
  | update (args : WriteArgs)
deriving DecidableEq

/-- Is the effect a remote write (create or update)? -/
def Effect.isRemoteWrite : Effect → Bool
  | .localWrite _ _ => false
  | .create _ => true
  | .update _ => true

/-- The collaborators `runCreate` touches, passed in explicitly: the git
tag lookup result, the local filesystem reads (for `calculate`) and write
outcomes (for `ioutil.WriteFile`), the `GH_TOOLS_TOKEN` environment
variable, and the GitHub content store. -/
structure World where
  gitTag : Except GoError Str
  readFile : Str → Except GoError (List Nat)
  writeFile : Str → Str → Option GoError
  token : Option Str
  store : Store

/-! ### The pipeline functions -/

/-- Function `calculate` (lines 215-230): open and stream the file at `path`
through SHA-256 and hex-encode the digest; an open or read error is
returned as-is, with no digest. -/
def calculate (w : World) (path : Str) : Except GoError Str :=
  match w.readFile path with
  | .error e => .error e
  | .ok bs => .ok (sha256hex bs)

/-- Function `dataFor` (lines 184-206): compute the artifact digest, then assemble
the `templateData` record. -/
def dataFor (w : World) (brew : Homebrew) (artifact : Artifact) :
    Except GoError templateData :=
  match calculate w artifact.Path with
  | .error e => .error e
  | .ok sum =>
    .ok { Name := formulaNameFor brew.Name
          DownloadURL := strOf "https://github.com"
          Desc := brew.Description
          Homepage := brew.Homepage
          Owner := brew.Owner
          Repo := brew.Repo
          Tag := artifact.Version
          Version := artifact.Version
          Caveats := split brew.Caveats
          File := artifact.Name
          SHA256 := sum
          Dependencies := brew.Dependencies
          Conflicts := brew.Conflicts
          Plist := brew.Plist
          Install := split brew.Install }

/-- Quote a string field for the rendered formula. -/
def quoted (s : Str) : Str := '"' :: s ++ ['"']

/-- Newline-join a list of lines. -/
def joinLines (ls : List Str) : Str :=
  match ls with
  | [] => []
  | l :: rest => l ++ (rest.map (fun r => '\n' :: r)).flatten

/-- Modelled from the spec: the `formulaTemplate` constant is not under
`src/`, so the rendered formula text is reconstructed from §4.3 of the
spec — a name declaration, homepage/description fields, the release-asset
download URL built from owner, repo and tag, the SHA-256 field, one
statement per dependency and per conflict (blocks omitted when the lists
are empty), an install block with one statement per install line, an
optional background-service (plist) block, and an optional caveats block.
It is a pure function of the `templateData` record. -/
def render (d : templateData) : Str :=
  joinLines
    ([strOf "class " ++ d.Name ++ strOf " < Formula",
      strOf "  desc " ++ quoted d.Desc,
      strOf "  homepage " ++ quoted d.Homepage,
      strOf "  url " ++ quoted (d.DownloadURL ++ strOf "/" ++ d.Owner ++
        strOf "/" ++ d.Repo ++ strOf "/releases/download/" ++ d.Tag ++
        strOf "/" ++ d.File),
      strOf "  version " ++ quoted d.Version,
      strOf "  sha256 " ++ quoted d.SHA256]
     ++ d.Dependencies.map (fun dep => strOf "  depends_on " ++ quoted dep)
     ++ d.Conflicts.map (fun c => strOf "  conflicts_with " ++ quoted c)
     ++ [strOf "  def install"]
     ++ d.Install.map (fun i => strOf "    " ++ i)
     ++ [strOf "  end"]
     ++ (if d.Plist = [] then []
         else [strOf "  def plist", strOf "    " ++ d.Plist, strOf "  end"])
     ++ (if d.Caveats = [] then []
         else [strOf "  def caveats"]
           ++ d.Caveats.map (fun c => strOf "    " ++ c)
           ++ [strOf "  end"])
     ++ [strOf "end"])

/-- Function `doBuildFormula` (lines 174-182): parse the fixed template and execute
it on `data`.  The template constant is fixed and well-formed, so the
parse step never fails; execution is the pure `render`. -/
def doBuildFormula (d : templateData) : Except GoError Str :=
  .ok (render d)

/-- Function `buildFormula` (lines 166-172). -/
def buildFormula (w : World) (brew : Homebrew) (artifact : Artifact) :
    Except GoError Str :=
  match dataFor w brew artifact with
  | .error e => .error e
  | .ok d => doBuildFormula d

/-- The `RepositoryContentFileOptions` value built at lines 124-131,
together with the fixed call-site coordinates (`BrewOwner`, `BrewRepo`,
`path`): committer identity, content, message, and no `SHA` yet. -/
def uploadOptions (brew : Homebrew) (content path message : Str) : WriteArgs :=
  { owner := brew.BrewOwner
    repo := brew.BrewRepo
    path := path
    content := content
    message := message
    authorName := brew.Author
    authorEmail := brew.AuthorEmail
    sha := none }

/-- Function `upload` (lines 110-164): look up the token, query the remote file,
then create (on 404) or update (carrying the queried file's SHA).  The
returned trace records the remote writes issued, in order. -/
def upload (w : World) (brew : Homebrew) (content : Str)
    (path message : Str) : Option GoError × List Effect :=
  match w.token with
  | none => (some (.fatalMsg (strOf "GH_TOOLS_TOKEN env var is not set")), [])
  | some _ =>
    let options : WriteArgs := uploadOptions brew content path message
    let r := w.store.getFile
    if r.err.isSome ∧ r.status ≠ 404 then (r.err, [])
    else if r.status = 404 then
      (w.store.createFile options, [.create options])
    else
      let options2 := { options with sha := r.fileSha }
      (w.store.updateFile options2, [.update options2])

/-- The install line synthesized at line 75:
`fmt.Sprintf("bin.install %s-darwin-amd64", brew.Name)`. -/
def installLineFor (name : Str) : Str :=
  strOf "bin.install " ++ name ++ strOf "-darwin-amd64"

/-- Lines 74-75 of `runCreate`: the caller-supplied `Name` is overwritten
with `Repo`, and the install blob is synthesized from it. -/
def prepBrew (brew : Homebrew) : Homebrew :=
  { brew with Name := brew.Repo, Install := installLineFor brew.Repo }

/-- Lines 82-86 of `runCreate`: the single darwin-amd64 artifact. -/
def artifactFor (brew : Homebrew) (tag : Str) : Artifact :=
  { Name := brew.Name ++ strOf "-darwin-amd64"
    Path := strOf "dist/" ++ brew.Name ++ strOf "/" ++ brew.Name ++
      strOf "-darwin-amd64"
    Version := tag }

/-- The local output path, `filepath.Join("dist/", brew.Name + ".rb")`
(for the clean relative file names produced here, `Join` is plain
concatenation). -/
def localPathFor (name : Str) : Str := strOf "dist/" ++ name ++ strOf ".rb"

/-- The commit message of line 103:
`fmt.Sprintf("Brew formula update for %s version %s", ...)`. -/
def messageFor (artifact : Artifact) : Str :=
  strOf "Brew formula update for " ++ artifact.Name ++ strOf " version " ++
    artifact.Version

/-- Function `runCreate` (lines 73-108): resolve the tag, build the formula, write
it under `dist/`, and, unless `SkipUpload` is set, publish it via
`upload`.  Every `log.Fatal` is modelled as returning `some` error; the
trace lists the write effects in program order. -/
def runCreate (w : World) (brew0 : Homebrew) : Option GoError × List Effect :=
  let brew := prepBrew brew0
  match w.gitTag with
  | .error e => (some e, [])
  | .ok tag =>
    let artifact := artifactFor brew tag
    match buildFormula w brew artifact with
    | .error e => (some e, [])
    | .ok content =>
      let path := localPathFor brew.Name
      match w.writeFile path content with
      | some e => (some e, [.localWrite path content])
      | none =>
        if brew.SkipUpload then (none, [.localWrite path content])
        else
          let message := messageFor artifact
          let res := upload w brew content (brew.Name ++ strOf ".rb") message
          (res.1, .localWrite path content :: res.2)

/-! ### Claim-side (specification) definitions

These two definitions follow the words of the specification, not the
source; they exist to be compared against the source-derived
`formulaNameFor`. -/

/-- Title-casing as the specification words it: upper-case the first
letter of each whitespace-delimited word (a character is upper-cased
exactly when the previous character — a space before the string start —
is whitespace). -/
def titleWhitespaceWords (s : Str) : Str :=
  (s.zip (' ' :: s)).map fun cp =>
    if isGoSpace cp.2 then toTitleChar cp.1 else cp.1

/-- The claim's normalizer, following its words: replace every `-` and
`_` with a space, upper-case the first letter of each
whitespace-delimited word, then remove all spaces. -/
def normalizeWhitespaceWords (name : Str) : Str :=
  removeSpaces (titleWhitespaceWords (charReplace '_' ' '
    (charReplace '-' ' ' name)))

/-- Title-casing by separator-delimited words: upper-case a character
exactly when the previous character (a space before the string start) is
a `strings.Title` separator, i.e. anything but an ASCII letter, digit or
underscore. -/
def titleSeparatorWords (s : Str) : Str :=
  (s.zip (' ' :: s)).map fun cp =>
    if isSeparator cp.2 then toTitleChar cp.1 else cp.1

/-- The amended normalizer: like `normalizeWhitespaceWords` but with word
boundaries at every `strings.Title` separator, not only at whitespace. -/
def normalizeSeparatorWords (name : Str) : Str :=
  removeSpaces (titleSeparatorWords (charReplace '_' ' '
    (charReplace '-' ' ' name)))

/-! ### Concrete fixtures used by the witnesses -/

/-- A fully concrete `Homebrew` value used by the witnesses. -/
def brewW : Homebrew :=
  { Name := [], Owner := strOf "acme", Repo := strOf "tool-x",
    BrewOwner := strOf "appscode", BrewRepo := strOf "homebrew-tap",
    Author := strOf "1gtm", AuthorEmail := strOf "1gtm@appscode.com",
    Folder := [], Caveats := [], Plist := [], Install := [],
    Dependencies := [], Test := [], Conflicts := [], Description := [],
    Homepage := strOf "https://appscode.com", SkipUpload := false }

/-- A store whose existence query reports 404. -/
def store404 : Store :=
  { getFile := { fileSha := none, status := 404,
                 err := some (.remoteErr (strOf "not found")) },
    createFile := fun _ => none, updateFile := fun _ => none }

/-- A store whose existence query succeeds with blob SHA `"T"`. -/
def storeOk : Store :=
  { getFile := { fileSha := some (strOf "T"), status := 200, err := none },
    createFile := fun _ => none, updateFile := fun _ => none }

/-- A store whose existence query fails with a 500. -/
def storeErr : Store :=
  { getFile := { fileSha := none, status := 500,
                 err := some (.remoteErr (strOf "boom")) },
    createFile := fun _ => none, updateFile := fun _ => none }

/-- A store that rejects every update as a stale write. -/
def storeStale : Store :=
  { getFile := { fileSha := some (strOf "T"), status := 200, err := none },
    createFile := fun _ => none,
    updateFile := fun _ => some .concurrentModification }

/-- A world built over the given store, with everything else succeeding. -/
def worldWith (st : Store) : World :=
  { gitTag := .ok (strOf "v1.2.3"), readFile := fun _ => .ok [],
    writeFile := fun _ _ => none, token := some (strOf "tok"), store := st }

/-- A world whose file read fails. -/
def worldBadRead : World :=
  { worldWith storeOk with
    readFile := fun _ => .error (.ioErr (strOf "boom")) }

/-- A world whose tag resolution fails. -/
def worldTagErr : World :=
  { worldWith storeOk with gitTag := .error (.ioErr (strOf "no tag")) }

/-- A fully concrete record used by the determinism witness. -/
def recordW : templateData :=
  { Name := strOf "ToolX", DownloadURL := strOf "https://github.com",
    Desc := strOf "d", Homepage := strOf "h", Owner := strOf "acme",
    Repo := strOf "tool-x", Tag := strOf "v1.2.3",
    Version := strOf "v1.2.3", Caveats := [], File := strOf "f",
    SHA256 := sha256hex [], Dependencies := [], Conflicts := [],
    Plist := [], Install := [strOf "bin.install tool-x-darwin-amd64"] }

/-- The concrete record `dataFor` produces in the witness world. -/
def dW : templateData :=
  { Name := formulaNameFor ((prepBrew brewW).Name)
    DownloadURL := strOf "https://github.com"
    Desc := (prepBrew brewW).Description
    Homepage := (prepBrew brewW).Homepage
    Owner := (prepBrew brewW).Owner
    Repo := (prepBrew brewW).Repo
    Tag := strOf "v1.2.3"
    Version := strOf "v1.2.3"
    Caveats := split (prepBrew brewW).Caveats
    File := (artifactFor (prepBrew brewW) (strOf "v1.2.3")).Name
    SHA256 := sha256hex []
    Dependencies := (prepBrew brewW).Dependencies
    Conflicts := (prepBrew brewW).Conflicts
    Plist := (prepBrew brewW).Plist
    Install := split ((prepBrew brewW).Install) }

/-! ### Helper lemmas -/

theorem splitNl_ne_nil (s : Str) : splitNl s ≠ [] := by
  cases s with
  | nil => simp [splitNl]
  | cons c cs =>
    by_cases h : c = '\n'
    · simp [splitNl, h]
    · simp only [splitNl, if_neg h]
      cases splitNl cs <;> simp

theorem splitNl_eq_single_nil (s : Str) : splitNl s = [[]] ↔ s = [] := by
  cases s with
  | nil => simp [splitNl]
  | cons c cs =>
    simp only [List.cons_ne_nil, iff_false]
    by_cases h : c = '\n'
    · simp only [splitNl, if_pos h]
      intro hh
      exact splitNl_ne_nil cs (List.cons_eq_cons.mp hh).2
    · simp only [splitNl, if_neg h]
      cases hsp : splitNl cs with
      | nil => simp
      | cons l ls => simp

theorem split_eq_nil_iff_trim (s : Str) : split s = [] ↔ trimSpace s = [] := by
  constructor
  · intro h
    by_cases hp : splitNl (trimSpace s) = [[]]
    · exact (splitNl_eq_single_nil _).mp hp
    · exact absurd h (by simpa [split, hp] using splitNl_ne_nil (trimSpace s))
  · intro h
    simp [split, h, splitNl]

theorem split_ne_single_nil (s : Str) : split s ≠ [[]] := by
  by_cases h : splitNl (trimSpace s) = [[]] <;> simp [split, h]

theorem trimSpace_eq_nil_iff (s : Str) :
    trimSpace s = [] ↔ ∀ c ∈ s, isGoSpace c := by
  unfold trimSpace
  rw [List.reverse_eq_nil_iff, List.dropWhile_eq_nil_iff]
  constructor
  · intro h c hc
    rcases (List.mem_append.mp
        ((List.takeWhile_append_dropWhile (p := isGoSpace) (l := s)) ▸ hc))
      with h1 | h1
    · exact List.mem_takeWhile_imp h1
    · exact h c (List.mem_reverse.mpr h1)
  · intro h c hc
    exact h c ((List.dropWhile_sublist _).mem (List.mem_reverse.mp hc))

theorem goTitleAux_eq_zip (p : Char) (l : Str) :
    goTitleAux p l = (l.zip (p :: l)).map fun cp =>
      if isSeparator cp.2 then toTitleChar cp.1 else cp.1 := by
  induction l generalizing p with
  | nil => rfl
  | cons c cs ih => simp [goTitleAux, ih c]

theorem upload_create_branch (w : World) (brew : Homebrew)
    (content path message tok : Str)
    (htok : w.token = some tok) (h404 : w.store.getFile.status = 404) :
    upload w brew content path message =
      (w.store.createFile (uploadOptions brew content path message),
       [Effect.create (uploadOptions brew content path message)]) := by
  simp [upload, htok, h404]

theorem upload_update_branch (w : World) (brew : Homebrew)
    (content path message tok : Str)
    (htok : w.token = some tok) (herr : w.store.getFile.err = none)
    (hst : w.store.getFile.status ≠ 404) :
    upload w brew content path message =
      (w.store.updateFile { uploadOptions brew content path message with
         sha := w.store.getFile.fileSha },
       [Effect.update { uploadOptions brew content path message with
         sha := w.store.getFile.fileSha }]) := by
  simp [upload, htok, herr, hst]

theorem upload_trace_cases (w : World) (brew : Homebrew)
    (content path message : Str) :
    (upload w brew content path message).2 = [] ∨
    (upload w brew content path message).2 =
      [Effect.create (uploadOptions brew content path message)] ∨
    (upload w brew content path message).2 =
      [Effect.update { uploadOptions brew content path message with
         sha := w.store.getFile.fileSha }] := by
  unfold upload
  cases w.token with
  | none => exact Or.inl rfl
  | some tok =>
    by_cases h1 : w.store.getFile.err.isSome ∧ w.store.getFile.status ≠ 404
    · simp [h1]
    · by_cases h2 : w.store.getFile.status = 404
      · simp [h1, h2]
      · cases hopt : w.store.getFile.err with
        | none => simp [h1, h2, hopt]
        | some e => exact absurd ⟨by simp [hopt], h2⟩ h1

theorem upload_mem_args (w : World) (brew : Homebrew)
    (content path message : Str) (args : WriteArgs)
    (h : Effect.create args ∈ (upload w brew content path message).2 ∨
         Effect.update args ∈ (upload w brew content path message).2) :
    args.message = message := by
  rcases upload_trace_cases w brew content path message with ht | ht | ht
  · rw [ht] at h; simp at h
  · rw [ht] at h
    rcases h with h | h <;> simp at h
    subst h; rfl
  · rw [ht] at h
    rcases h with h | h <;> simp at h
    subst h; rfl

theorem split_installLine_ne_nil (name : Str) :
    split (installLineFor name) ≠ [] := by
  intro h
  have hall := (trimSpace_eq_nil_iff _).mp ((split_eq_nil_iff_trim _).mp h)
  have hb : 'b' ∈ installLineFor name := by
    unfold installLineFor
    exact List.mem_append.mpr
      (Or.inl (List.mem_append.mpr (Or.inl (by decide))))
  exact absurd (hall 'b' hb) (by decide)

theorem hexDigit_mem (n : Nat) : hexDigit n ∈ hexDigits := by
  unfold hexDigit
  set k := Nat.land n 15 with hk
  have h : k < 16 := Nat.lt_succ_of_le Nat.and_le_right
  interval_cases k <;> decide

theorem wordToHex8_mem (w : Nat) (c : Char) (hc : c ∈ wordToHex8 w) :
    c ∈ hexDigits := by
  simp [wordToHex8] at hc
  rcases hc with h | h | h | h | h | h | h | h <;> exact h ▸ hexDigit_mem _

theorem sha256hex_length (msg : List Nat) : (sha256hex msg).length = 64 := by
  simp [sha256hex, wordToHex8]

theorem sha256hex_lower_hex (msg : List Nat) (c : Char)
    (hc : c ∈ sha256hex msg) : c ∈ hexDigits := by
  simp [sha256hex] at hc
  rcases hc with h | h | h | h | h | h | h | h <;> exact wordToHex8_mem _ _ h

theorem prepBrew_Name (brew : Homebrew) : (prepBrew brew).Name = brew.Repo :=
  rfl

theorem prepBrew_SkipUpload (brew : Homebrew) :
    (prepBrew brew).SkipUpload = brew.SkipUpload := rfl

theorem runCreate_tag_error (w : World) (brew : Homebrew) (e : GoError)
    (hg : w.gitTag = .error e) : runCreate w brew = (some e, []) := by
  simp [runCreate, hg]

theorem runCreate_build_error (w : World) (brew : Homebrew)
    (tag : Str) (e : GoError) (hg : w.gitTag = .ok tag)
    (hb : buildFormula w (prepBrew brew) (artifactFor (prepBrew brew) tag) =
      .error e) :
    runCreate w brew = (some e, []) := by
  simp [runCreate, hg, hb]

theorem runCreate_write_error (w : World) (brew : Homebrew)
    (tag content : Str) (e : GoError) (hg : w.gitTag = .ok tag)
    (hb : buildFormula w (prepBrew brew) (artifactFor (prepBrew brew) tag) =
      .ok content)
    (hw : w.writeFile (localPathFor brew.Repo) content = some e) :
    runCreate w brew =
      (some e, [Effect.localWrite (localPathFor brew.Repo) content]) := by
  simp [runCreate, hg, hb, prepBrew_Name, prepBrew_SkipUpload, hw]

theorem runCreate_skip (w : World) (brew : Homebrew)
    (tag content : Str) (hg : w.gitTag = .ok tag)
    (hb : buildFormula w (prepBrew brew) (artifactFor (prepBrew brew) tag) =
      .ok content)
    (hw : w.writeFile (localPathFor brew.Repo) content = none)
    (hs : brew.SkipUpload = true) :
    runCreate w brew =
      (none, [Effect.localWrite (localPathFor brew.Repo) content]) := by
  simp [runCreate, hg, hb, prepBrew_Name, prepBrew_SkipUpload, hw, hs]

theorem runCreate_publish (w : World) (brew : Homebrew)
    (tag content : Str) (hg : w.gitTag = .ok tag)
    (hb : buildFormula w (prepBrew brew) (artifactFor (prepBrew brew) tag) =
      .ok content)
    (hw : w.writeFile (localPathFor brew.Repo) content = none)
    (hs : brew.SkipUpload = false) :
    runCreate w brew =
      ((upload w (prepBrew brew) content (brew.Repo ++ strOf ".rb")
          (messageFor (artifactFor (prepBrew brew) tag))).1,
       Effect.localWrite (localPathFor brew.Repo) content ::
         (upload w (prepBrew brew) content (brew.Repo ++ strOf ".rb")
           (messageFor (artifactFor (prepBrew brew) tag))).2) := by
  simp [runCreate, hg, hb, prepBrew_Name, prepBrew_SkipUpload, hw, hs]

/-! ### The claims -/

/-- C1: with the token present, a 404 from the existence query makes
`upload` issue exactly the one create operation (and no update); a
successful query returning a file with blob SHA `t` makes it issue
exactly the one update operation carrying `t` as its `SHA` concurrency
precondition (and no create). -/
theorem upload_create_or_update (w : World) (brew : Homebrew)
    (content path message tok t : Str) (htok : w.token = some tok) :
    (w.store.getFile.status = 404 →
      (upload w brew content path message).2 =
        [Effect.create (uploadOptions brew content path message)]) ∧
    (w.store.getFile.err = none → w.store.getFile.status ≠ 404 →
      w.store.getFile.fileSha = some t →
      (upload w brew content path message).2 =
        [Effect.update { uploadOptions brew content path message with
           sha := some t }]) := by
  constructor
  · intro h404
    rw [upload_create_branch w brew content path message tok htok h404]
  · intro herr hst hsha
    rw [upload_update_branch w brew content path message tok htok herr hst,
      hsha]

theorem upload_create_or_update_witness :
    (upload (worldWith store404) brewW (strOf "c") (strOf "p")
        (strOf "m")).2 =
      [Effect.create (uploadOptions brewW (strOf "c") (strOf "p")
        (strOf "m"))] ∧
    (upload (worldWith storeOk) brewW (strOf "c") (strOf "p")
        (strOf "m")).2 =
      [Effect.update { uploadOptions brewW (strOf "c") (strOf "p")
        (strOf "m") with sha := some (strOf "T") }] :=
  ⟨(upload_create_or_update (worldWith store404) brewW (strOf "c")
      (strOf "p") (strOf "m") (strOf "tok") (strOf "T") rfl).1 rfl,
   (upload_create_or_update (worldWith storeOk) brewW (strOf "c")
      (strOf "p") (strOf "m") (strOf "tok") (strOf "T") rfl).2 rfl
     (by decide) rfl⟩

/-- C2: with the token present, if the existence query fails with an
error and the status is not 404, `upload` returns that very error and
issues no write at all. -/
theorem upload_non404_error_aborts (w : World) (brew : Homebrew)
    (content path message tok : Str) (e : GoError)
    (htok : w.token = some tok)
    (herr : w.store.getFile.err = some e)
    (hst : w.store.getFile.status ≠ 404) :
    upload w brew content path message = (some e, []) := by
  simp [upload, htok, herr, hst]

theorem upload_non404_error_aborts_witness :
    upload (worldWith storeErr) brewW (strOf "c") (strOf "p") (strOf "m") =
      (some (.remoteErr (strOf "boom")), []) :=
  upload_non404_error_aborts (worldWith storeErr) brewW (strOf "c")
    (strOf "p") (strOf "m") (strOf "tok") (.remoteErr (strOf "boom"))
    rfl rfl (by decide)

/-- C3: when the update operation rejects the stale revision token with a
concurrent-modification error, `upload` surfaces that error and the trace
holds exactly the one rejected update — no retry, no further write. -/
theorem upload_stale_token_no_retry (w : World) (brew : Homebrew)
    (content path message tok t : Str)
    (htok : w.token = some tok)
    (herr : w.store.getFile.err = none)
    (hst : w.store.getFile.status ≠ 404)
    (hsha : w.store.getFile.fileSha = some t)
    (hrej : w.store.updateFile { uploadOptions brew content path message with
      sha := some t } = some GoError.concurrentModification) :
    upload w brew content path message =
      (some GoError.concurrentModification,
       [Effect.update { uploadOptions brew content path message with
          sha := some t }]) := by
  rw [upload_update_branch w brew content path message tok htok herr hst,
    hsha, hrej]

theorem upload_stale_token_no_retry_witness :
    upload (worldWith storeStale) brewW (strOf "c") (strOf "p")
        (strOf "m") =
      (some GoError.concurrentModification,
       [Effect.update { uploadOptions brewW (strOf "c") (strOf "p")
          (strOf "m") with sha := some (strOf "T") }]) :=
  upload_stale_token_no_retry (worldWith storeStale) brewW (strOf "c")
    (strOf "p") (strOf "m") (strOf "tok") (strOf "T") rfl rfl (by decide)
    rfl rfl

/-- C4 counterexample: on the input `"a\n\nb"` the helper returns the
sequence `["a", "", "b"]`, which contains an empty line — so the helper
does not, for every input, return a sequence of non-empty trimmed lines. -/
theorem split_nonempty_lines_counterexample :
    split (strOf "a\n\nb") = [strOf "a", [], strOf "b"] ∧
    ([] : Str) ∈ split (strOf "a\n\nb") := by
  decide

/-- C4 (amended): the helper trims whitespace off both ends of the whole
input and splits at each newline; an empty or all-whitespace input yields
the empty sequence, the result is never the one-element sequence holding
the empty string, and `"a\nb\n"` yields `["a", "b"]`.  Interior lines are
returned verbatim (they may themselves be empty or untrimmed). -/
theorem split_spec :
    (∀ s : Str, split s = [] ↔ ∀ c ∈ s, isGoSpace c) ∧
    (∀ s : Str, split s ≠ [[]]) ∧
    split (strOf "a\nb\n") = [strOf "a", strOf "b"] ∧
    split [] = [] ∧ split (strOf " \t ") = [] := by
  refine ⟨fun s => ?_, split_ne_single_nil, by decide, by decide, by decide⟩
  rw [split_eq_nil_iff_trim, trimSpace_eq_nil_iff]

theorem split_spec_witness :
    split (strOf " ") = [] ∧ split (strOf "x") ≠ [[]] :=
  ⟨(split_spec.1 (strOf " ")).mpr (by decide), split_spec.2.1 (strOf "x")⟩

/-- C5 counterexample: on `"my.tool"` the code title-cases after the dot
(Go `strings.Title` treats every non-alphanumeric, non-underscore
character as a word boundary, not only whitespace), yielding
`"My.Tool"`, while the claimed whitespace-delimited-word rule yields
`"My.tool"`. -/
theorem formulaNameFor_counterexample :
    formulaNameFor (strOf "my.tool") = strOf "My.Tool" ∧
    normalizeWhitespaceWords (strOf "my.tool") = strOf "My.tool" ∧
    formulaNameFor (strOf "my.tool") ≠
      normalizeWhitespaceWords (strOf "my.tool") := by
  decide

/-- C5 (amended): the normalizer replaces every `-` and `_` with a space,
upper-cases each character that starts the string or follows a
`strings.Title` separator — any character other than an ASCII letter,
digit or underscore, not only whitespace — and then removes all spaces;
in particular `"my-cool_tool" ↦ "MyCoolTool"`, `"already" ↦ "Already"`,
`"" ↦ ""`, and `"my.tool" ↦ "My.Tool"`. -/
theorem formulaNameFor_spec :
    (∀ name : Str, formulaNameFor name = normalizeSeparatorWords name) ∧
    formulaNameFor (strOf "my-cool_tool") = strOf "MyCoolTool" ∧
    formulaNameFor (strOf "already") = strOf "Already" ∧
    formulaNameFor [] = [] ∧
    formulaNameFor (strOf "my.tool") = strOf "My.Tool" := by
  refine ⟨fun name => ?_, by decide, by decide, by decide, by decide⟩
  unfold formulaNameFor normalizeSeparatorWords goTitle titleSeparatorWords
  rw [goTitleAux_eq_zip]

set_option maxRecDepth 4000 in
/-- C6: when the file is readable, `calculate` returns exactly the
64-character lowercase-hex SHA-256 digest of its full contents; the
digest of the empty file is the published test vector; and a read error
is returned as-is, with no partial hash. -/
theorem calculate_spec (w : World) (path : Str) (bs : List Nat)
    (e : GoError) :
    (w.readFile path = .ok bs →
      calculate w path = .ok (sha256hex bs) ∧
      (sha256hex bs).length = 64 ∧
      ∀ c ∈ sha256hex bs, c ∈ hexDigits) ∧
    (w.readFile path = .error e → calculate w path = .error e) ∧
    sha256hex [] = strOf
      "e3b0c44298fc1c149afbf4c8996fb92427ae41e4649b934ca495991b7852b855" := by
  refine ⟨fun h => ⟨?_, sha256hex_length bs,
      fun c hc => sha256hex_lower_hex bs c hc⟩, fun h => ?_, by decide⟩
  · simp [calculate, h]
  · simp [calculate, h]

theorem calculate_spec_witness :
    calculate (worldWith storeOk) [] = .ok (sha256hex []) ∧
    (sha256hex []).length = 64 ∧
    calculate worldBadRead [] = .error (.ioErr (strOf "boom")) :=
  ⟨((calculate_spec (worldWith storeOk) [] [] (.ioErr [])).1 rfl).1,
   ((calculate_spec (worldWith storeOk) [] [] (.ioErr [])).1 rfl).2.1,
   (calculate_spec worldBadRead [] [] (.ioErr (strOf "boom"))).2.1 rfl⟩

/-- C7: rendering is deterministic — the manifest text is a pure function
of the record, so two render calls on the same record produce
byte-identical output. -/
theorem render_deterministic (d1 d2 : templateData) (h : d1 = d2) :
    render d1 = render d2 := by rw [h]

theorem render_deterministic_witness : render recordW = render recordW :=
  render_deterministic recordW recordW rfl

/-- C9: every record the pipeline hands to the renderer has a non-empty
install-line list: lines 74-75 always synthesize the install blob
`bin.install <name>-darwin-amd64` from the artifact name (also when the
caller supplied none), and `split` of that blob is never empty. -/
theorem install_lines_nonempty (w : World) (brew : Homebrew) (a : Artifact)
    (d : templateData) (h : dataFor w (prepBrew brew) a = .ok d) :
    d.Install ≠ [] := by
  unfold dataFor at h
  cases hc : calculate w a.Path with
  | error e => simp [hc] at h
  | ok sum =>
    simp only [hc, Except.ok.injEq] at h
    subst h
    exact split_installLine_ne_nil brew.Repo

theorem install_lines_nonempty_witness : dW.Install ≠ [] :=
  install_lines_nonempty (worldWith storeOk) brewW
    (artifactFor (prepBrew brewW) (strOf "v1.2.3")) dW rfl

/-- C10: the derived record's identity fields are fixed by construction,
independent of the caller-supplied package name: `Name` is overwritten
with the repo name, the formula name is `formulaNameFor repo`, the
download base URL is the constant `https://github.com`, the artifact is
the single `<repo>-darwin-amd64` variant at `dist/<repo>/...`, and every
local manifest write goes to `dist/<repo>.rb`. -/
theorem record_identity_fields (w : World) (brew : Homebrew) (tag : Str)
    (d : templateData)
    (h : dataFor w (prepBrew brew) (artifactFor (prepBrew brew) tag) =
      .ok d) :
    (prepBrew brew).Name = brew.Repo ∧
    d.Name = formulaNameFor brew.Repo ∧
    d.DownloadURL = strOf "https://github.com" ∧
    (artifactFor (prepBrew brew) tag).Name =
      brew.Repo ++ strOf "-darwin-amd64" ∧
    (artifactFor (prepBrew brew) tag).Path =
      strOf "dist/" ++ brew.Repo ++ strOf "/" ++ brew.Repo ++
        strOf "-darwin-amd64" ∧
    localPathFor (prepBrew brew).Name =
      strOf "dist/" ++ brew.Repo ++ strOf ".rb" ∧
    (∀ p c, Effect.localWrite p c ∈ (runCreate w brew).2 →
      p = strOf "dist/" ++ brew.Repo ++ strOf ".rb") := by
  have hrec : d.Name = formulaNameFor brew.Repo ∧
      d.DownloadURL = strOf "https://github.com" := by
    unfold dataFor at h
    cases hc : calculate w (artifactFor (prepBrew brew) tag).Path with
    | error e => simp [hc] at h
    | ok sum =>
      simp only [hc, Except.ok.injEq] at h
      subst h
      exact ⟨rfl, rfl⟩
  refine ⟨rfl, hrec.1, hrec.2, rfl, rfl, rfl, ?_⟩
  intro p c hp
  cases hg : w.gitTag with
  | error e => rw [runCreate_tag_error w brew e hg] at hp; simp at hp
  | ok tg =>
    cases hb : buildFormula w (prepBrew brew) (artifactFor (prepBrew brew) tg)
      with
    | error e => rw [runCreate_build_error w brew tg e hg hb] at hp; simp at hp
    | ok content =>
      cases hw : w.writeFile (localPathFor brew.Repo) content with
      | some e =>
        rw [runCreate_write_error w brew tg content e hg hb hw] at hp
        simp at hp
        exact hp.1
      | none =>
        cases hs : brew.SkipUpload with
        | true =>
          rw [runCreate_skip w brew tg content hg hb hw hs] at hp
          simp at hp
          exact hp.1
        | false =>
          rw [runCreate_publish w brew tg content hg hb hw hs] at hp
          rcases List.mem_cons.mp hp with h1 | h1
          · exact (Effect.localWrite.injEq _ _ _ _).mp h1 |>.1
          · rcases upload_trace_cases w (prepBrew brew) content
              (brew.Repo ++ strOf ".rb")
              (messageFor (artifactFor (prepBrew brew) tg)) with ht | ht | ht
              <;> rw [ht] at h1 <;> simp at h1

theorem record_identity_fields_witness :
    dW.Name = formulaNameFor (strOf "tool-x") ∧
    dW.DownloadURL = strOf "https://github.com" :=
  ⟨(record_identity_fields (worldWith storeOk) brewW (strOf "v1.2.3") dW
      rfl).2.1,
   (record_identity_fields (worldWith storeOk) brewW (strOf "v1.2.3") dW
      rfl).2.2.1⟩

/-- C8: once the formula is built, the rendered manifest is written to
the local output path regardless of the publish flag; remote writes are
issued only when `SkipUpload` is false and always carry the commit
message embedding the artifact name and version; and a failure at tag
resolution, digest/render, or local write aborts the invocation with no
later effect in the trace. -/
theorem runCreate_orchestration (w : World) (brew : Homebrew) :
    (∀ tag content, w.gitTag = .ok tag →
      buildFormula w (prepBrew brew) (artifactFor (prepBrew brew) tag) =
        .ok content →
      Effect.localWrite (localPathFor brew.Repo) content ∈
        (runCreate w brew).2) ∧
    (brew.SkipUpload = true →
      ∀ op ∈ (runCreate w brew).2, op.isRemoteWrite = false) ∧
    (∀ tag args, w.gitTag = .ok tag →
      (Effect.create args ∈ (runCreate w brew).2 ∨
       Effect.update args ∈ (runCreate w brew).2) →
      brew.SkipUpload = false ∧
      args.message = strOf "Brew formula update for " ++
        (brew.Repo ++ strOf "-darwin-amd64") ++ strOf " version " ++ tag) ∧
    (∀ e, w.gitTag = .error e → runCreate w brew = (some e, [])) ∧
    (∀ tag e, w.gitTag = .ok tag →
      buildFormula w (prepBrew brew) (artifactFor (prepBrew brew) tag) =
        .error e →
      runCreate w brew = (some e, [])) ∧
    (∀ tag content e, w.gitTag = .ok tag →
      buildFormula w (prepBrew brew) (artifactFor (prepBrew brew) tag) =
        .ok content →
      w.writeFile (localPathFor brew.Repo) content = some e →
      runCreate w brew =
        (some e, [Effect.localWrite (localPathFor brew.Repo) content])) := by
  refine ⟨?_, ?_, ?_, fun e hg => runCreate_tag_error w brew e hg,
    fun tag e hg hb => runCreate_build_error w brew tag e hg hb,
    fun tag content e hg hb hw =>
      runCreate_write_error w brew tag content e hg hb hw⟩
  · intro tag content hg hb
    cases hw : w.writeFile (localPathFor brew.Repo) content with
    | some e => rw [runCreate_write_error w brew tag content e hg hb hw]; simp
    | none =>
      cases hs : brew.SkipUpload with
      | true => rw [runCreate_skip w brew tag content hg hb hw hs]; simp
      | false => rw [runCreate_publish w brew tag content hg hb hw hs]; simp
  · intro hs op hop
    cases hg : w.gitTag with
    | error e => rw [runCreate_tag_error w brew e hg] at hop; simp at hop
    | ok tag =>
      cases hb : buildFormula w (prepBrew brew)
        (artifactFor (prepBrew brew) tag) with
      | error e =>
        rw [runCreate_build_error w brew tag e hg hb] at hop; simp at hop
      | ok content =>
        cases hw : w.writeFile (localPathFor brew.Repo) content with
        | some e =>
          rw [runCreate_write_error w brew tag content e hg hb hw] at hop
          simp at hop
          subst hop
          rfl
        | none =>
          rw [runCreate_skip w brew tag content hg hb hw hs] at hop
          simp at hop
          subst hop
          rfl
  · intro tag args hg hmem
    cases hb : buildFormula w (prepBrew brew)
      (artifactFor (prepBrew brew) tag) with
    | error e =>
      rw [runCreate_build_error w brew tag e hg hb] at hmem; simp at hmem
    | ok content =>
      cases hw : w.writeFile (localPathFor brew.Repo) content with
      | some e =>
        rw [runCreate_write_error w brew tag content e hg hb hw] at hmem
        simp at hmem
      | none =>
        cases hs : brew.SkipUpload with
        | true =>
          rw [runCreate_skip w brew tag content hg hb hw hs] at hmem
          simp at hmem
        | false =>
          rw [runCreate_publish w brew tag content hg hb hw hs] at hmem
          refine ⟨rfl, ?_⟩
          have hup : Effect.create args ∈
              (upload w (prepBrew brew) content (brew.Repo ++ strOf ".rb")
                (messageFor (artifactFor (prepBrew brew) tag))).2 ∨
              Effect.update args ∈
              (upload w (prepBrew brew) content (brew.Repo ++ strOf ".rb")
                (messageFor (artifactFor (prepBrew brew) tag))).2 := by
            rcases hmem with h | h
            · rcases List.mem_cons.mp h with h1 | h1
              · simp at h1
              · exact Or.inl h1
            · rcases List.mem_cons.mp h with h1 | h1
              · simp at h1
              · exact Or.inr h1
          exact upload_mem_args w (prepBrew brew) content
            (brew.Repo ++ strOf ".rb")
            (messageFor (artifactFor (prepBrew brew) tag)) args hup

theorem runCreate_orchestration_witness :
    runCreate worldTagErr brewW = (some (.ioErr (strOf "no tag")), []) ∧
    Effect.localWrite (localPathFor (strOf "tool-x")) (render dW) ∈
      (runCreate (worldWith storeOk) brewW).2 :=
  ⟨(runCreate_orchestration worldTagErr brewW).2.2.2.1
      (.ioErr (strOf "no tag")) rfl,
   (runCreate_orchestration (worldWith storeOk) brewW).1 (strOf "v1.2.3")
     (render dW) rfl rfl⟩

end BrewTool
